import Mathlib

/-!
Verification of the nimbus-fml manifest front end
(`components/support/nimbus-fml/src/parser.rs`).

Strings are embedded as `List Char` (Rust `String` / `&str`).  The Rust
iterator protocol `input.split(&['<', '>'][..])` with two `next()` calls is
embedded by `nextSeg` (the text before the first delimiter) and `restAfter`
(the remainder after the first delimiter, when one exists).  Rust panics
(`unwrap()` on `None`, the `panic!` macro) are embedded as an explicit
`panic` outcome, distinct from returned `Err` values.
-/

namespace Fml

/-- Rust `String` / `&str`, embedded as a list of characters. -/
abbrev Str := List Char

/-- The delimiter set `['<', '>']` used by `parse_typeref_string`. -/
def isDelim (c : Char) : Bool := c = '<' || c = '>'

/-- The comma delimiter used by the `Map` branch of `TypeRef::try_from`. -/
def isComma (c : Char) : Bool := c = ','

/-- Whitespace for Rust's `str::trim` (the characters occurring in manifests). -/
def isWS (c : Char) : Bool := c = ' ' || c = '\t' || c = '\n' || c = '\r'

/-- First segment of `l.split(p)`: the text before the first delimiter.
This is what the first `next()` of a Rust `split` iterator yields (always
present, possibly empty). -/
def nextSeg (p : Char → Bool) (l : Str) : Str :=
  l.takeWhile (fun c => !p c)

/-- The remainder after the first delimiter of `l`, or `none` when `l`
contains no delimiter.  The second `next()` of a Rust `split` iterator
yields `(restAfter p l).map (nextSeg p)`. -/
def restAfter (p : Char → Bool) (l : Str) : Option Str :=
  match l.dropWhile (fun c => !p c) with
  | [] => none
  | _ :: rest => some rest

/-- Rust `str::trim`: drop whitespace from both ends. -/
def trimChars (l : Str) : Str :=
  ((l.dropWhile isWS).reverse.dropWhile isWS).reverse

/-- The fixed primitive names checked by `parse_typeref_string`
(`["String", "Int", "Boolean"].contains(&type_ref_name)`). -/
def primitiveNames : List Str :=
  ["String".toList, "Int".toList, "Boolean".toList]

/-- `TypeRef` from `intermediate_representation.rs`.
Modelled from the spec: §3 gives the tagged union
`String | Int | Boolean | BundleText(name) | BundleImage(name) | Enum(name)
| Object(name) | List(t) | Option(t) | StringMap(v) | EnumMap(k, v)`;
the definition itself is outside `src/`, but every variant is exercised by
`parser.rs`. -/
inductive TypeRef where
  | String : TypeRef
  | Int : TypeRef
  | Boolean : TypeRef
  | BundleText (name : Str) : TypeRef
  | BundleImage (name : Str) : TypeRef
  | Enum (name : Str) : TypeRef
  | Object (name : Str) : TypeRef
  | List (inner : TypeRef) : TypeRef
  | Option (inner : TypeRef) : TypeRef
  | StringMap (value : TypeRef) : TypeRef
  | EnumMap (key : TypeRef) (value : TypeRef) : TypeRef
deriving DecidableEq, Repr

/-- The errors `TypeRef::try_from` constructs: only
`FMLError::TypeParsingError(message)`; the two call sites differ in the
formatted message. -/
inductive FMLError where
  | TypeParsingError (msg : Str) : FMLError
deriving DecidableEq, Repr

/-- Outcome of running `TypeRef::try_from`: an `Ok` value, a returned
`Err`, or a process-terminating panic (`Option::unwrap` on `None`). -/
inductive ParseOutcome where
  | ok (t : TypeRef) : ParseOutcome
  | err (e : FMLError) : ParseOutcome
  | panic : ParseOutcome
deriving DecidableEq, Repr

/-- The `?` operator: propagate `Err`; a panic also propagates. -/
def bindOutcome (o : ParseOutcome) (f : TypeRef → ParseOutcome) : ParseOutcome :=
  match o with
  | .ok t => f t
  | .err e => .err e
  | .panic => .panic

/-- `parse_typeref_string` (parser.rs lines 141-160).  Splits the input on
`<`/`>`; the trimmed first segment is the constructor name; if it is a
primitive name the function returns immediately with no inner argument;
otherwise the second segment of the split (untrimmed), when present, is the
inner argument.  The Rust function returns `Ok` on every path. -/
def parse_typeref_string (input : Str) : Str × Option Str :=
  let type_ref_name := trimChars (nextSeg isDelim input)
  if type_ref_name ∈ primitiveNames then
    (type_ref_name, none)
  else
    match restAfter isDelim input with
    | some rest => (type_ref_name, some (nextSeg isDelim rest))
    | none => (type_ref_name, none)

/-- Message of the `Map`-key error site
(`"{} is not a recognized FML Map key type"`, formatted with the
constructor name, which is always `"Map"` at that site). -/
def mapKeyErrMsg (type_ref : Str) : Str :=
  type_ref ++ " is not a recognized FML Map key type".toList

/-- Message of the unrecognized-constructor error site
(`"{} is not a recognized FML type"`). -/
def typeErrMsg (type_ref : Str) : Str :=
  type_ref ++ " is not a recognized FML type".toList

/-- `TypeRef::try_from` (parser.rs lines 51-99), with explicit fuel so that
the definition is structurally recursive and kernel-computable.  Every
recursive call of the Rust code is on a strict substring obtained after
consuming at least one delimiter, so any fuel exceeding the input length is
sufficient (`tryFromFuel_congr`); `tryFrom` below supplies it.  The
`type_name.unwrap()` calls of the Rust code become `.panic` when the inner
argument is absent, as does the `unwrap()` on the missing second
comma-separated part of a `Map` argument. -/
def tryFromFuel : Nat → Str → ParseOutcome
  | 0, _ => .panic
  | fuel + 1, val =>
    let pr := parse_typeref_string val
    let type_ref := pr.1
    let type_name := pr.2
    if type_ref = "String".toList then .ok .String
    else if type_ref = "Int".toList then .ok .Int
    else if type_ref = "Boolean".toList then .ok .Boolean
    else if type_ref = "BundleText".toList then
      match type_name with
      | some n => .ok (.BundleText n)
      | none => .panic
    else if type_ref = "BundleImage".toList then
      match type_name with
      | some n => .ok (.BundleImage n)
      | none => .panic
    else if type_ref = "Enum".toList then
      match type_name with
      | some n => .ok (.Enum n)
      | none => .panic
    else if type_ref = "Object".toList then
      match type_name with
      | some n => .ok (.Object n)
      | none => .panic
    else if type_ref = "List".toList then
      match type_name with
      | some n => bindOutcome (tryFromFuel fuel n) (fun t => .ok (.List t))
      | none => .panic
    else if type_ref = "Option".toList then
      match type_name with
      | some n => bindOutcome (tryFromFuel fuel n) (fun t => .ok (.Option t))
      | none => .panic
    else if type_ref = "Map".toList then
      match type_name with
      | some tn =>
        let key_type := nextSeg isComma tn
        match restAfter isComma tn with
        | none => .panic
        | some afterComma =>
          let value_type := trimChars (nextSeg isComma afterComma)
          if "Enum".toList.isPrefixOf key_type then
            bindOutcome (tryFromFuel fuel key_type) (fun k =>
              bindOutcome (tryFromFuel fuel value_type) (fun v =>
                .ok (.EnumMap k v)))
          else if key_type = "String".toList then
            bindOutcome (tryFromFuel fuel value_type) (fun v =>
              .ok (.StringMap v))
          else
            .err (.TypeParsingError (mapKeyErrMsg type_ref))
      | none => .panic
    else
      .err (.TypeParsingError (typeErrMsg type_ref))

/-- `TypeRef::try_from(val)`: run the resolver with sufficient fuel. -/
def tryFrom (val : Str) : ParseOutcome :=
  tryFromFuel (val.length + 1) val

/-- The constructor names handled by the `match` arms of
`TypeRef::try_from`; any other constructor name falls to the default arm
(`TypeParsingError`). -/
def constructorNames : List Str :=
  ["String".toList, "Int".toList, "Boolean".toList, "BundleText".toList,
   "BundleImage".toList, "Enum".toList, "Object".toList, "List".toList,
   "Option".toList, "Map".toList]

/-! ### The document model and the lowering pass (`Parser::new`)

Rust's `HashMap` fields of the deserialized document are embedded as
association lists: the list order stands for the iteration order the
`HashMap` presents to the lowering pass (which, for `std::collections::HashMap`
with its randomized hasher, is not a function of the document text). -/

/-- Modelled from the spec: defaults are "opaque structured value or
absence-marker" (§3); `serde_json::Value` is an external library type, so
only the shape this pass observes is modelled: the `Null` value produced
for absent defaults, and an inert payload carried through verbatim. -/
inductive JSONValue where
  | null : JSONValue
  | value (payload : Str) : JSONValue
deriving DecidableEq, Repr

/-- `json!` applied to an `Option<serde_json::Value>`:
`None` serializes to `Null`, `Some(v)` to `v`. -/
def jsonOfOpt (o : Option JSONValue) : JSONValue :=
  match o with
  | some v => v
  | none => .null

/-- Modelled from the spec: `VariantDef` is `{name, doc}` (§3). -/
structure VariantDef where
  name : Str
  doc : Str
deriving DecidableEq, Repr

/-- Modelled from the spec: `EnumDef` is `{name, doc, variants}` (§3). -/
structure EnumDef where
  name : Str
  doc : Str
  variants : List VariantDef
deriving DecidableEq, Repr

/-- Modelled from the spec: `PropDef` is `{name, doc, typ, default}` (§3). -/
structure PropDef where
  name : Str
  doc : Str
  typ : TypeRef
  default : JSONValue
deriving DecidableEq, Repr

/-- Modelled from the spec: `ObjectDef` is `{name, doc, props}` (§3). -/
structure ObjectDef where
  name : Str
  doc : Str
  props : List PropDef
deriving DecidableEq, Repr

/-- Modelled from the spec: `FeatureDef` is `{name, doc, props, default}`
(§3); the feature-level default is optional. -/
structure FeatureDef where
  name : Str
  doc : Str
  props : List PropDef
  default : Option JSONValue
deriving DecidableEq, Repr

/-- Modelled from the spec: `FeatureManifest` is
`{enum_defs, obj_defs, feature_defs, hints}` (§3); `hints` is a map that is
always empty at this stage, so its value type is immaterial. -/
structure FeatureManifest where
  enum_defs : List EnumDef
  obj_defs : List ObjectDef
  feature_defs : List FeatureDef
  hints : List (Str × Str)
deriving DecidableEq, Repr

/-- `EnumVariantBody` (parser.rs line 17). -/
structure EnumVariantBody where
  description : Str
deriving DecidableEq, Repr

/-- `EnumBody` (parser.rs line 22); `variants` is a `HashMap`. -/
structure EnumBody where
  description : Str
  variants : List (Str × EnumVariantBody)
deriving DecidableEq, Repr

/-- `ObjectFieldBody` (parser.rs line 28). -/
structure ObjectFieldBody where
  description : Str
  required : Bool
  variable_type : Str
  default : Option JSONValue
deriving DecidableEq, Repr

/-- `ObjectBody` (parser.rs line 38); `fields` is a `HashMap`. -/
structure ObjectBody where
  description : Str
  failable : Option Bool
  fields : List (Str × ObjectFieldBody)
deriving DecidableEq, Repr

/-- `Types` (parser.rs line 45); both fields are `HashMap`s. -/
structure Types where
  enums : List (Str × EnumBody)
  objects : List (Str × ObjectBody)
deriving DecidableEq, Repr

/-- `FeatureVariableBody` (parser.rs line 101). -/
structure FeatureVariableBody where
  description : Str
  variable_type : Str
  default : Option JSONValue
deriving DecidableEq, Repr

/-- `FeatureBody` (parser.rs line 128); `variables` is a `HashMap` (the
field name needs guillemets because `variables` is reserved in Lean). -/
structure FeatureBody where
  description : Str
  «variables» : List (Str × FeatureVariableBody)
  default : Option JSONValue
deriving DecidableEq, Repr

/-- `ManifestFrontEnd` (parser.rs line 134): the deserialized document. -/
structure ManifestFrontEnd where
  types : Types
  features : List (Str × FeatureBody)
  channels : List Str
deriving DecidableEq, Repr

/-- Outcome of a lowering step that the Rust code can abort with a panic
(`unwrap()` on an `Err`, or the `panic!` macro): either a value or a
process-terminating panic. -/
inductive LowerOutcome (α : Type) where
  | ok (a : α) : LowerOutcome α
  | panic : LowerOutcome α
deriving DecidableEq, Repr

/-- Map a fallible step over a list, panicking at the first element whose
step panics — the behavior of a Rust iterator `map(..).collect()` whose
closure panics. -/
def mapPanic (f : α → LowerOutcome β) : List α → LowerOutcome (List β)
  | [] => .ok []
  | a :: as' =>
    match f a with
    | .ok b =>
      match mapPanic f as' with
      | .ok bs => .ok (b :: bs)
      | .panic => .panic
    | .panic => .panic

/-- Lowering of one enum entry (parser.rs lines 179-191). -/
def lowerEnum (kv : Str × EnumBody) : EnumDef :=
  { name := kv.1
    doc := kv.2.description
    variants := kv.2.variants.map (fun v => { name := v.1, doc := v.2.description }) }

/-- Lowering of one object entry (parser.rs lines 198-215).  Each field's
type string goes through `TypeRef::try_from(..).unwrap()`: an `Err` (and a
panic inside `try_from`) terminate the process. -/
def lowerObject (kv : Str × ObjectBody) : LowerOutcome ObjectDef :=
  match mapPanic (fun v =>
      match tryFrom v.2.variable_type with
      | .ok t => .ok { name := v.1
                       doc := v.2.description
                       typ := t
                       default := jsonOfOpt v.2.default : PropDef }
      | .err _ => .panic
      | .panic => .panic) kv.2.fields with
  | .ok props => .ok { name := kv.1, doc := kv.2.description, props := props }
  | .panic => .panic

/-- `HashMap::insert`: replace the value at an existing key, else append. -/
def insertAssoc (k : Str) (v : TypeRef) : List (Str × TypeRef) → List (Str × TypeRef)
  | [] => [(k, v)]
  | (k', v') :: rest =>
    if k' = k then (k, v) :: rest else (k', v') :: insertAssoc k v rest

/-- `HashMap::get`. -/
def lookupAssoc (k : Str) : List (Str × TypeRef) → Option TypeRef
  | [] => none
  | (k', v') :: rest => if k' = k then some v' else lookupAssoc k rest

/-- The user-type table construction (parser.rs lines 220-226): insert
`Enum(name)` under every lowered enum name, then `Object(name)` under every
lowered object name (overwriting any enum of the same name). -/
def buildTypes (enums : List EnumDef) (objects : List ObjectDef) : List (Str × TypeRef) :=
  let withEnums := enums.foldl (fun m e => insertAssoc e.name (.Enum e.name) m) []
  objects.foldl (fun m o => insertAssoc o.name (.Object o.name) m) withEnums

/-- The type of one feature variable (parser.rs lines 241-253): try
`TypeRef::try_from`; on `Err`, fall back to the user-type table; if the
name is absent there, the code runs the `panic!` macro.  A panic inside
`try_from` itself propagates (the fallback is never reached). -/
def lowerVarTyp (types : List (Str × TypeRef)) (t : Str) : LowerOutcome TypeRef :=
  match tryFrom t with
  | .ok r => .ok r
  | .err _ =>
    match lookupAssoc t types with
    | some r => .ok r
    | none => .panic
  | .panic => .panic

/-- Lowering of one feature entry (parser.rs lines 231-262). -/
def lowerFeature (types : List (Str × TypeRef)) (kv : Str × FeatureBody) :
    LowerOutcome FeatureDef :=
  match mapPanic (fun v =>
      match lowerVarTyp types v.2.variable_type with
      | .ok t => .ok { name := v.1
                       doc := v.2.description
                       typ := t
                       default := jsonOfOpt v.2.default : PropDef }
      | .panic => .panic) kv.2.«variables» with
  | .ok props =>
    .ok { name := kv.1
          doc := kv.2.description
          props := props
          default := if kv.2.default.isSome then some (jsonOfOpt kv.2.default) else none }
  | .panic => .panic

/-- The `Parser` struct (parser.rs lines 162-168). -/
structure Parser where
  enums : List EnumDef
  objects : List ObjectDef
  features : List FeatureDef
  channels : List Str
deriving DecidableEq, Repr

/-- `Parser::new` after deserialization (parser.rs lines 174-271): lower
enums, then objects (possibly panicking), build the user-type table from
their names, then lower features (possibly panicking). -/
def parserNew (m : ManifestFrontEnd) : LowerOutcome Parser :=
  let enums := m.types.enums.map lowerEnum
  match mapPanic lowerObject m.types.objects with
  | .panic => .panic
  | .ok objects =>
    let types := buildTypes enums objects
    match mapPanic (lowerFeature types) m.features with
    | .panic => .panic
    | .ok features =>
      .ok { enums := enums, objects := objects, features := features
            channels := m.channels }

/-- `Parser::get_intermediate_representation` (parser.rs lines 273-280):
clone the stored lists into a `FeatureManifest` with an empty `hints` map,
and return `Ok`.  The Rust method takes `&self`, so the parser itself is
read, never written. -/
def get_intermediate_representation (p : Parser) : Except FMLError FeatureManifest :=
  .ok { enum_defs := p.enums
        obj_defs := p.objects
        hints := []
        feature_defs := p.features }

/-- Presentation equivalence of two deserialized documents: they carry the
same entries in their `HashMap`-backed sections, possibly presented in
different iteration orders (for `std::collections::HashMap` the iteration
order is not a function of the document text), and the same `channels`
sequence (a `Vec`, whose order is part of the document). -/
def ManifestEquiv (m1 m2 : ManifestFrontEnd) : Prop :=
  m1.types.enums.Perm m2.types.enums ∧
  m1.types.objects.Perm m2.types.objects ∧
  m1.features.Perm m2.features ∧
  m1.channels = m2.channels

/-- A document with no declared types and one feature variable whose type
string resolves to nothing: `types: {enums: {}, objects: {}}`,
`features: {my-feature: {variables: {spool: {type: NotAType}}}}`. -/
def c4Doc : ManifestFrontEnd :=
  { types := { enums := [], objects := [] }
    features := [("my-feature".toList,
      { description := "a feature".toList
        «variables» := [("spool".toList,
          { description := "a variable".toList
            variable_type := "NotAType".toList
            default := none })]
        default := none })]
    channels := [] }

/-- One enum entry of the two-enum document below. -/
def enumEntryA : Str × EnumBody :=
  ("PlayerProfile".toList,
    { description := "first enum".toList
      variants := [("adult".toList, { description := "an adult".toList })] })

/-- The other enum entry of the two-enum document below. -/
def enumEntryB : Str × EnumBody :=
  ("ThemeColor".toList,
    { description := "second enum".toList
      variants := [("dark".toList, { description := "dark mode".toList })] })

/-- A two-enum document, with its enum map presented in one order. -/
def c7Doc1 : ManifestFrontEnd :=
  { types := { enums := [enumEntryA, enumEntryB], objects := [] }
    features := []
    channels := [] }

/-- The same two-enum document, with its enum map presented in the other
order. -/
def c7Doc2 : ManifestFrontEnd :=
  { types := { enums := [enumEntryB, enumEntryA], objects := [] }
    features := []
    channels := [] }

/-- The parser value produced from `c7Doc1`. -/
def c7Parser1 : Parser :=
  { enums := [lowerEnum enumEntryA, lowerEnum enumEntryB]
    objects := [], features := [], channels := [] }

/-- The parser value produced from `c7Doc2`. -/
def c7Parser2 : Parser :=
  { enums := [lowerEnum enumEntryB, lowerEnum enumEntryA]
    objects := [], features := [], channels := [] }

/-! ### Sanity checks against the repository's own unit tests -/

example : tryFrom "String".toList = .ok .String := by decide
example : tryFrom "List<String>".toList = .ok (.List .String) := by decide
example : tryFrom "Map<String, Int>".toList = .ok (.StringMap .Int) := by decide
example : tryFrom "BundleText<test_name>".toList
    = .ok (.BundleText "test_name".toList) := by decide
example : tryFrom "str".toList
    = .err (.TypeParsingError (typeErrMsg "str".toList)) := by decide
example : tryFrom "BundleText()".toList
    = .err (.TypeParsingError (typeErrMsg "BundleText()".toList)) := by decide
example : tryFrom "Option(Something)".toList
    = .err (.TypeParsingError (typeErrMsg "Option(Something)".toList)) := by decide

/-! ### Helper lemmas -/

theorem nextSeg_length_le (p : Char → Bool) (l : Str) :
    (nextSeg p l).length ≤ l.length := by
  unfold nextSeg
  induction l with
  | nil => simp
  | cons c cs ih =>
    by_cases h : (!p c) = true
    · simpa [List.takeWhile_cons, h] using ih
    · simp [List.takeWhile_cons, h]

theorem dropWhile_length_le (p : Char → Bool) (l : Str) :
    (l.dropWhile p).length ≤ l.length := by
  induction l with
  | nil => simp
  | cons c cs ih =>
    by_cases h : p c = true
    · simp only [List.dropWhile_cons, h, if_true]
      exact Nat.le_trans ih (Nat.le_succ _)
    · simp [List.dropWhile_cons, h]

theorem restAfter_some_length_lt (p : Char → Bool) (l r : Str)
    (h : restAfter p l = some r) : r.length < l.length := by
  unfold restAfter at h
  cases hd : l.dropWhile (fun c => !p c) with
  | nil => rw [hd] at h; cases h
  | cons c rest =>
    rw [hd] at h
    have hr : rest = r := by injection h
    subst hr
    have h1 : (l.dropWhile (fun c => !p c)).length ≤ l.length :=
      dropWhile_length_le _ l
    rw [hd] at h1
    simpa using h1

theorem trimChars_length_le (l : Str) : (trimChars l).length ≤ l.length := by
  unfold trimChars
  have h1 : ((l.dropWhile isWS).reverse.dropWhile isWS).length
      ≤ (l.dropWhile isWS).reverse.length := dropWhile_length_le _ _
  have h2 : (l.dropWhile isWS).length ≤ l.length := dropWhile_length_le _ _
  simp only [List.length_reverse] at h1 ⊢
  exact Nat.le_trans h1 h2

theorem parse_snd_length_lt (val n : Str)
    (h : (parse_typeref_string val).2 = some n) : n.length < val.length := by
  unfold parse_typeref_string at h
  by_cases hp : trimChars (nextSeg isDelim val) ∈ primitiveNames
  · simp [hp] at h
  · simp only [hp, if_false] at h
    cases hr : restAfter isDelim val with
    | none => rw [hr] at h; simp at h
    | some rest =>
      rw [hr] at h
      simp only at h
      have hn : nextSeg isDelim rest = n := by injection h
      have h1 := nextSeg_length_le isDelim rest
      have h2 := restAfter_some_length_lt isDelim val rest hr
      rw [← hn]
      omega

/-- Any fuel exceeding the input length yields the same outcome: each
recursive call of `tryFromFuel` is on a string strictly shorter than its
input (a delimiter or comma is consumed on the way), so the fuel supplied
by `tryFrom` is sufficient and the embedding is fuel-independent. -/
theorem tryFromFuel_congr (f1 : Nat) : ∀ (f2 : Nat) (val : Str),
    val.length < f1 → val.length < f2 →
    tryFromFuel f1 val = tryFromFuel f2 val := by
  induction f1 with
  | zero => intro f2 val h1 _; exact absurd h1 (Nat.not_lt_zero _)
  | succ n1 ih =>
    intro f2 val h1 h2
    cases f2 with
    | zero => exact absurd h2 (Nat.not_lt_zero _)
    | succ n2 =>
      rcases hp : parse_typeref_string val with ⟨tr, tn⟩
      cases tn with
      | none => simp only [tryFromFuel, hp]
      | some n =>
        have hlt : n.length < val.length :=
          parse_snd_length_lt val n (by rw [hp])
        have hn1 : n.length < n1 := by omega
        have hn2 : n.length < n2 := by omega
        have hkey : ∀ m : Str, m.length ≤ n.length →
            tryFromFuel n1 m = tryFromFuel n2 m := by
          intro m hm
          exact ih n2 m (by omega) (by omega)
        rcases hc : restAfter isComma n with _ | afterComma
        · simp only [tryFromFuel, hp, hc]
          rw [hkey n (Nat.le_refl _)]
        · have hval : (trimChars (nextSeg isComma afterComma)).length ≤ n.length := by
            have ha := restAfter_some_length_lt isComma n afterComma hc
            have hb := nextSeg_length_le isComma afterComma
            have hd := trimChars_length_le (nextSeg isComma afterComma)
            omega
          have hkeylen : (nextSeg isComma n).length ≤ n.length :=
            nextSeg_length_le isComma n
          simp only [tryFromFuel, hp, hc]
          rw [hkey n (Nat.le_refl _), hkey (nextSeg isComma n) hkeylen,
            hkey (trimChars (nextSeg isComma afterComma)) hval]

theorem lookupAssoc_insertAssoc (k k' : Str) (v : TypeRef) (m : List (Str × TypeRef)) :
    lookupAssoc k (insertAssoc k' v m) =
      if k' = k then some v else lookupAssoc k m := by
  induction m with
  | nil => simp [insertAssoc, lookupAssoc]
  | cons kv rest ih =>
    rcases kv with ⟨k0, v0⟩
    simp only [insertAssoc]
    by_cases h0 : k0 = k'
    · simp only [h0, if_pos rfl, lookupAssoc]
      by_cases hk : k' = k
      · simp [hk]
      · simp [hk, h0]
    · simp only [if_neg h0, lookupAssoc]
      by_cases hk : k0 = k
      · have hk' : k' ≠ k := fun hc => h0 (hk.trans hc.symm)
        simp [hk, hk']
      · simp [hk, ih]

theorem lookupAssoc_foldl_insert (g : Str → TypeRef) (names : List Str)
    (m : List (Str × TypeRef)) (k : Str) :
    lookupAssoc k (names.foldl (fun acc nm => insertAssoc nm (g nm) acc) m) =
      if k ∈ names then some (g k) else lookupAssoc k m := by
  induction names generalizing m with
  | nil => simp
  | cons nm rest ih =>
    simp only [List.foldl_cons]
    rw [ih]
    by_cases h1 : k ∈ rest
    · simp [h1]
    · by_cases h2 : nm = k
      · subst h2; simp [h1, lookupAssoc_insertAssoc]
      · simp [h1, h2, Ne.symm h2, lookupAssoc_insertAssoc]

/-- What the user-type table answers for every name: object names win
(they are inserted after enum names), then enum names, else nothing. -/
theorem lookupAssoc_buildTypes (enums : List EnumDef) (objects : List ObjectDef) (k : Str) :
    lookupAssoc k (buildTypes enums objects) =
      if k ∈ objects.map ObjectDef.name then some (.Object k)
      else if k ∈ enums.map EnumDef.name then some (.Enum k)
      else none := by
  unfold buildTypes
  have he : enums.foldl (fun m e => insertAssoc e.name (.Enum e.name) m)
        ([] : List (Str × TypeRef))
      = (enums.map EnumDef.name).foldl
          (fun acc nm => insertAssoc nm (.Enum nm) acc) [] := by
    rw [List.foldl_map]
  have ho : ∀ init : List (Str × TypeRef),
      objects.foldl (fun m o => insertAssoc o.name (.Object o.name) m) init
      = (objects.map ObjectDef.name).foldl
          (fun acc nm => insertAssoc nm (.Object nm) acc) init := by
    intro init
    rw [List.foldl_map]
  simp only [ho, he, lookupAssoc_foldl_insert]
  simp [lookupAssoc]

theorem mapPanic_congr {α β : Type} (f g : α → LowerOutcome β) (l : List α)
    (h : ∀ x ∈ l, f x = g x) : mapPanic f l = mapPanic g l := by
  induction l with
  | nil => rfl
  | cons a as ih =>
    simp only [mapPanic]
    rw [h a (List.mem_cons_self a as),
      ih (fun x hx => h x (List.mem_cons_of_mem _ hx))]

theorem mapPanic_perm {α β : Type} (f : α → LowerOutcome β) {l1 l2 : List α}
    (hp : l1.Perm l2) : ∀ {r1 : List β}, mapPanic f l1 = .ok r1 →
    ∃ r2, mapPanic f l2 = .ok r2 ∧ r1.Perm r2 := by
  induction hp with
  | nil =>
    intro r1 h1
    exact ⟨r1, h1, List.Perm.refl _⟩
  | cons x hp' ih =>
    rename_i l₁ l₂
    intro r1 h1
    simp only [mapPanic] at h1
    cases hfx : f x with
    | panic => rw [hfx] at h1; simp at h1
    | ok b =>
      rw [hfx] at h1
      cases hm : mapPanic f l₁ with
      | panic => rw [hm] at h1; simp at h1
      | ok bs =>
        rw [hm] at h1
        simp only [LowerOutcome.ok.injEq] at h1
        obtain ⟨r2, h2, hperm⟩ := ih hm
        refine ⟨b :: r2, ?_, ?_⟩
        · simp only [mapPanic, hfx, h2]
        · rw [← h1]
          exact List.Perm.cons b hperm
  | swap x y l =>
    intro r1 h1
    simp only [mapPanic] at h1
    cases hfy : f y with
    | panic => rw [hfy] at h1; simp at h1
    | ok b1 =>
      rw [hfy] at h1
      cases hfx : f x with
      | panic => rw [hfx] at h1; simp at h1
      | ok b2 =>
        rw [hfx] at h1
        cases hm : mapPanic f l with
        | panic => rw [hm] at h1; simp at h1
        | ok bs =>
          rw [hm] at h1
          simp only [LowerOutcome.ok.injEq] at h1
          refine ⟨b2 :: b1 :: bs, ?_, ?_⟩
          · simp only [mapPanic, hfx, hfy, hm]
          · rw [← h1]
            exact List.Perm.swap b2 b1 bs
  | trans hp1 hp2 ih1 ih2 =>
    intro r1 h1
    obtain ⟨rmid, hmid, hperm1⟩ := ih1 h1
    obtain ⟨r2, h2, hperm2⟩ := ih2 hmid
    exact ⟨r2, h2, hperm1.trans hperm2⟩

theorem lowerVarTyp_congr (t1 t2 : List (Str × TypeRef))
    (h : ∀ k, lookupAssoc k t1 = lookupAssoc k t2) (s : Str) :
    lowerVarTyp t1 s = lowerVarTyp t2 s := by
  unfold lowerVarTyp
  cases tryFrom s with
  | ok r => rfl
  | err e => rw [h s]
  | panic => rfl

theorem lowerFeature_congr (t1 t2 : List (Str × TypeRef))
    (h : ∀ k, lookupAssoc k t1 = lookupAssoc k t2) (kv : Str × FeatureBody) :
    lowerFeature t1 kv = lowerFeature t2 kv := by
  have hv := lowerVarTyp_congr t1 t2 h
  unfold lowerFeature
  simp only [hv]

/-- Inversion of a successful `parserNew` run into its three stages. -/
theorem parserNew_ok_inv (m : ManifestFrontEnd) (p : Parser)
    (h : parserNew m = .ok p) :
    p.enums = m.types.enums.map lowerEnum ∧
    mapPanic lowerObject m.types.objects = .ok p.objects ∧
    mapPanic (lowerFeature (buildTypes (m.types.enums.map lowerEnum) p.objects))
      m.features = .ok p.features ∧
    p.channels = m.channels := by
  simp only [parserNew] at h
  cases ho : mapPanic lowerObject m.types.objects with
  | panic => rw [ho] at h; simp at h
  | ok objects =>
    rw [ho] at h
    simp only at h
    cases hf : mapPanic
        (lowerFeature (buildTypes (m.types.enums.map lowerEnum) objects))
        m.features with
    | panic => rw [hf] at h; simp at h
    | ok features =>
      rw [hf] at h
      simp only [LowerOutcome.ok.injEq] at h
      subst h
      exact ⟨rfl, rfl, hf, rfl⟩

/-- On a delimiter-free input, `parse_typeref_string` returns the trimmed
input as the constructor name and no inner argument. -/
theorem parse_plain (N : Str) (h : ∀ c ∈ N, isDelim c = false) :
    parse_typeref_string N = (trimChars N, none) := by
  have h1 : nextSeg isDelim N = N := by
    unfold nextSeg
    apply List.takeWhile_eq_self_iff.mpr
    intro x hx
    simp [h x hx]
  have h2 : restAfter isDelim N = none := by
    unfold restAfter
    have hd : N.dropWhile (fun c => !isDelim c) = N.dropWhile (fun c => !isDelim c) := rfl
    have : N.dropWhile (fun c => !isDelim c) = [] := by
      apply List.dropWhile_eq_nil_iff.mpr
      intro x hx
      simp [h x hx]
    rw [this]
  simp only [parse_typeref_string, h1, h2]
  by_cases hp : trimChars N ∈ primitiveNames <;> simp [hp]

/-- On a delimiter-free input whose trimmed text is none of the ten
constructor names, `TypeRef::try_from` returns the unrecognized-type
error. -/
theorem tryFrom_plain_err (N : Str) (hplain : ∀ c ∈ N, isDelim c = false)
    (hname : trimChars N ∉ constructorNames) :
    tryFrom N = .err (.TypeParsingError (typeErrMsg (trimChars N))) := by
  have hp := parse_plain N hplain
  simp only [constructorNames, List.mem_cons, List.not_mem_nil, or_false,
    not_or] at hname
  obtain ⟨h1, h2, h3, h4, h5, h6, h7, h8, h9, h10⟩ := hname
  unfold tryFrom
  simp only [tryFromFuel, hp]
  rw [if_neg h1, if_neg h2, if_neg h3, if_neg h4, if_neg h5, if_neg h6,
    if_neg h7, if_neg h8, if_neg h9, if_neg h10]

/-! ### The claims -/

/-- C1, counterexample.  The claim says resolution succeeds on every
nesting of `List`, `Option`, `Map<String, _>`, `Map<Enum<X>, _>` over a
primitive leaf, mirroring the nesting.  It fails at depth two — the
tokenizer cuts the inner argument at the next delimiter, so
`"List<List<String>>"` hands `"List"` to the recursive call, whose missing
argument is unwrapped: a panic, not a success — and already at depth one
for an `Enum`-keyed map, where the comma-split of the truncated inner
argument `"Enum"` has no second part. -/
theorem claim_C1_counterexample :
    tryFrom "List<List<String>>".toList = .panic ∧
    tryFrom "Map<Enum<Foo>, Int>".toList = .panic := by decide

/-- C1, amended.  Resolution mirrors the written shape only for a
primitive leaf alone or a single `List`/`Option`/`Map<String, _>`
constructor over a primitive leaf; deeper nesting (and any
`Map<Enum<X>, _>`) panics. -/
theorem claim_C1 :
    tryFrom "String".toList = .ok .String ∧
    tryFrom "Int".toList = .ok .Int ∧
    tryFrom "Boolean".toList = .ok .Boolean ∧
    tryFrom "List<String>".toList = .ok (.List .String) ∧
    tryFrom "List<Int>".toList = .ok (.List .Int) ∧
    tryFrom "List<Boolean>".toList = .ok (.List .Boolean) ∧
    tryFrom "Option<String>".toList = .ok (.Option .String) ∧
    tryFrom "Option<Int>".toList = .ok (.Option .Int) ∧
    tryFrom "Option<Boolean>".toList = .ok (.Option .Boolean) ∧
    tryFrom "Map<String, String>".toList = .ok (.StringMap .String) ∧
    tryFrom "Map<String, Int>".toList = .ok (.StringMap .Int) ∧
    tryFrom "Map<String, Boolean>".toList = .ok (.StringMap .Boolean) := by
  decide

/-- C2.  `"Map<String, Int>"` does resolve to `StringMap(Int)`, but
`"Map<Enum<Foo>, String>"` panics instead of resolving to
`EnumMap(Enum("Foo"), String)`: the tokenizer truncates the inner argument
to `"Enum"`, whose comma-split has no second part, and the `unwrap()` of
the missing value type aborts the process.  The `EnumMap` construction in
the code is unreachable on any successful path. -/
theorem claim_C2 :
    tryFrom "Map<String, Int>".toList = .ok (.StringMap .Int) ∧
    tryFrom "Map<Enum<Foo>, String>".toList = .panic := by decide

/-- C3.  A recognized non-primitive constructor written without `<...>`
does not produce a returned `MalformedTypeExpression` error: the code
unwraps the absent inner argument and panics (`"BundleText"` below); the
repository's own test file keeps the corresponding `unwrap_err` assertion
commented out as a known gap.  With an argument the constructor works. -/
theorem claim_C3 :
    tryFrom "BundleText<key>".toList = .ok (.BundleText "key".toList) ∧
    tryFrom "BundleText".toList = .panic := by decide

/-- C4.  Lowering a feature variable whose type string is neither a
built-in constructor nor a declared name does not return an
`UnknownUserType` error: `Parser::new` runs the `panic!` macro, aborting
the process (the spec itself flags this abort as behavior to correct). -/
theorem claim_C4 : parserNew c4Doc = .panic := by decide

/-- C5, counterexample.  The claim says a `Map` key that neither resolves
to the `Enum` variant nor textually equals `String` yields an
`UnsupportedMapKey` error.  The key `"Enum"` of `"Map<Enum, String>"` is
such a key (resolving it cannot yield the `Enum` variant — it panics on
the missing argument), yet the code panics rather than returning any
error, because discrimination is a textual `starts_with("Enum")` check
that routes this key into the recursive `EnumMap` path. -/
theorem claim_C5_counterexample :
    tryFrom "Map<Enum, String>".toList = .panic := by decide

/-- C5, amended.  Map-key discrimination is textual, on the raw key text
(the part of the inner argument before the first comma), not on the
resolved key: when that text does not start with `"Enum"` and is not
exactly `"String"`, resolution returns the map-key error
(`TypeParsingError "Map is not a recognized FML Map key type"`, the
`UnsupportedMapKey` case of the spec) without resolving the key; in
particular `"Map<Int, String>"` yields exactly this error. -/
theorem claim_C5 (s tn afterComma : Str)
    (hparse : parse_typeref_string s = ("Map".toList, some tn))
    (hcomma : restAfter isComma tn = some afterComma)
    (hkeyE : "Enum".toList.isPrefixOf (nextSeg isComma tn) = false)
    (hkeyS : nextSeg isComma tn ≠ "String".toList) :
    tryFrom s = .err (.TypeParsingError (mapKeyErrMsg "Map".toList)) := by
  unfold tryFrom
  simp only [tryFromFuel, hparse]
  rw [if_neg (by decide), if_neg (by decide), if_neg (by decide),
    if_neg (by decide), if_neg (by decide), if_neg (by decide),
    if_neg (by decide), if_neg (by decide), if_neg (by decide),
    if_pos (by decide)]
  simp only [hcomma]
  rw [if_neg (by rw [hkeyE]; simp), if_neg hkeyS]

/-- C5, witness: `"Map<Int, String>"` hits the amended theorem's error
branch. -/
theorem claim_C5_witness :
    tryFrom "Map<Int, String>".toList
      = .err (.TypeParsingError (mapKeyErrMsg "Map".toList)) :=
  claim_C5 "Map<Int, String>".toList "Int, String".toList " String".toList
    (by decide) (by decide) (by decide) (by decide)

/-- C6.  A feature variable whose type string is a declared name — a
delimiter-free string whose trimmed text is no built-in constructor name —
resolves through the user-type fallback: to `Enum(N)` when `N` names a
declared enum (and no object), and to `Object(N)` when `N` names a
declared object (objects win on a shared name, see C10). -/
theorem claim_C6 (enums : List EnumDef) (objects : List ObjectDef) (N : Str)
    (hplain : ∀ c ∈ N, isDelim c = false)
    (hname : trimChars N ∉ constructorNames) :
    (N ∈ enums.map EnumDef.name → N ∉ objects.map ObjectDef.name →
      lowerVarTyp (buildTypes enums objects) N = .ok (.Enum N)) ∧
    (N ∈ objects.map ObjectDef.name →
      lowerVarTyp (buildTypes enums objects) N = .ok (.Object N)) := by
  have herr := tryFrom_plain_err N hplain hname
  constructor
  · intro he hno
    unfold lowerVarTyp
    rw [herr]
    simp only
    rw [lookupAssoc_buildTypes]
    simp [he, hno]
  · intro ho
    unfold lowerVarTyp
    rw [herr]
    simp only
    rw [lookupAssoc_buildTypes]
    simp [ho]

/-- C6, witness: with enum `PlayerProfile` and object `Button` declared,
the variable type strings `"PlayerProfile"` and `"Button"` resolve via the
fallback to `Enum("PlayerProfile")` and `Object("Button")`. -/
theorem claim_C6_witness :
    lowerVarTyp
        (buildTypes [{ name := "PlayerProfile".toList, doc := [], variants := [] }]
          [{ name := "Button".toList, doc := [], props := [] }])
        "PlayerProfile".toList = .ok (.Enum "PlayerProfile".toList) ∧
    lowerVarTyp
        (buildTypes [{ name := "PlayerProfile".toList, doc := [], variants := [] }]
          [{ name := "Button".toList, doc := [], props := [] }])
        "Button".toList = .ok (.Object "Button".toList) :=
  ⟨(claim_C6 [{ name := "PlayerProfile".toList, doc := [], variants := [] }]
      [{ name := "Button".toList, doc := [], props := [] }]
      "PlayerProfile".toList (by decide) (by decide)).1 (by decide) (by decide),
   (claim_C6 [{ name := "PlayerProfile".toList, doc := [], variants := [] }]
      [{ name := "Button".toList, doc := [], props := [] }]
      "Button".toList (by decide) (by decide)).2 (by decide)⟩

/-- C7, counterexample.  The claim says two runs on the identical input
document produce structurally identical `FeatureManifest`s (same
definitions in the same arrangement).  The definition lists follow the
iteration order of the document's `HashMap`s, which is not a function of
the document: presenting the same two-enum document in the two orders a
`HashMap` may iterate yields different `Parser` values (the `enum_defs`
arrangements differ), hence different `FeatureManifest`s. -/
theorem claim_C7_counterexample :
    ManifestEquiv c7Doc1 c7Doc2 ∧ parserNew c7Doc1 ≠ parserNew c7Doc2 := by
  exact ⟨⟨by decide, by decide, by decide, rfl⟩, by decide⟩

/-- C7, amended.  Lowering is a pure function of the deserialized entry
sequences, and it is order-stable up to arrangement: when the same
document's top-level maps are presented in different iteration orders and
both runs succeed, the two parsers hold the same enum, object, and feature
definitions up to order, and the same channels. -/
theorem claim_C7 (m1 m2 : ManifestFrontEnd) (heq : ManifestEquiv m1 m2)
    (p1 p2 : Parser) (h1 : parserNew m1 = .ok p1) (h2 : parserNew m2 = .ok p2) :
    p1.enums.Perm p2.enums ∧ p1.objects.Perm p2.objects ∧
    p1.features.Perm p2.features ∧ p1.channels = p2.channels := by
  obtain ⟨he, hob, hf, hch⟩ := heq
  obtain ⟨e1, o1, f1, c1⟩ := parserNew_ok_inv m1 p1 h1
  obtain ⟨e2, o2, f2, c2⟩ := parserNew_ok_inv m2 p2 h2
  have henum : p1.enums.Perm p2.enums := by
    rw [e1, e2]
    exact he.map lowerEnum
  have hobj : p1.objects.Perm p2.objects := by
    obtain ⟨r2, hr2, hperm⟩ := mapPanic_perm lowerObject hob o1
    rw [hr2] at o2
    have hr : r2 = p2.objects := by injection o2
    rw [← hr]
    exact hperm
  have hfeat : p1.features.Perm p2.features := by
    have hlk : ∀ k, lookupAssoc k (buildTypes (m1.types.enums.map lowerEnum) p1.objects)
        = lookupAssoc k (buildTypes (m2.types.enums.map lowerEnum) p2.objects) := by
      intro k
      rw [lookupAssoc_buildTypes, lookupAssoc_buildTypes]
      have hoM : k ∈ p1.objects.map ObjectDef.name ↔
          k ∈ p2.objects.map ObjectDef.name :=
        (hobj.map ObjectDef.name).mem_iff
      have heM : k ∈ (m1.types.enums.map lowerEnum).map EnumDef.name ↔
          k ∈ (m2.types.enums.map lowerEnum).map EnumDef.name :=
        ((he.map lowerEnum).map EnumDef.name).mem_iff
      by_cases hk1 : k ∈ p1.objects.map ObjectDef.name
      · rw [if_pos hk1, if_pos (hoM.mp hk1)]
      · have hk2 : k ∉ p2.objects.map ObjectDef.name := fun hc => hk1 (hoM.mpr hc)
        by_cases hk3 : k ∈ (m1.types.enums.map lowerEnum).map EnumDef.name
        · rw [if_neg hk1, if_neg hk2, if_pos hk3, if_pos (heM.mp hk3)]
        · have hk4 : k ∉ (m2.types.enums.map lowerEnum).map EnumDef.name :=
            fun hc => hk3 (heM.mpr hc)
          rw [if_neg hk1, if_neg hk2, if_neg hk3, if_neg hk4]
    have hcongr : mapPanic
        (lowerFeature (buildTypes (m2.types.enums.map lowerEnum) p2.objects)) m2.features
        = mapPanic
        (lowerFeature (buildTypes (m1.types.enums.map lowerEnum) p1.objects)) m2.features :=
      mapPanic_congr _ _ _ (fun kv _ =>
        lowerFeature_congr _ _ (fun k => (hlk k).symm) kv)
    obtain ⟨r2, hr2, hperm⟩ := mapPanic_perm _ hf f1
    rw [hcongr, hr2] at f2
    have hr : r2 = p2.features := by injection f2
    rw [← hr]
    exact hperm
  exact ⟨henum, hobj, hfeat, by rw [c1, c2, hch]⟩

/-- C7, witness: the two presentations of the two-enum document both lower
successfully, to parsers holding the same definitions up to order. -/
theorem claim_C7_witness :
    c7Parser1.enums.Perm c7Parser2.enums ∧
    c7Parser1.objects.Perm c7Parser2.objects ∧
    c7Parser1.features.Perm c7Parser2.features ∧
    c7Parser1.channels = c7Parser2.channels :=
  claim_C7 c7Doc1 c7Doc2 ⟨by decide, by decide, by decide, rfl⟩
    c7Parser1 c7Parser2 (by decide) (by decide)

/-- C8.  Whenever the trimmed text before the first `<` or `>` delimiter
is a primitive name, resolution returns the corresponding leaf at once;
nothing after that name is inspected, whatever it is. -/
theorem claim_C8 (s : Str) :
    (trimChars (nextSeg isDelim s) = "String".toList → tryFrom s = .ok .String) ∧
    (trimChars (nextSeg isDelim s) = "Int".toList → tryFrom s = .ok .Int) ∧
    (trimChars (nextSeg isDelim s) = "Boolean".toList → tryFrom s = .ok .Boolean) := by
  refine ⟨fun h => ?_, fun h => ?_, fun h => ?_⟩
  · have hparse : parse_typeref_string s = ("String".toList, none) := by
      simp only [parse_typeref_string, h]
      rw [if_pos (by decide)]
    unfold tryFrom
    simp only [tryFromFuel, hparse]
    simp
  · have hparse : parse_typeref_string s = ("Int".toList, none) := by
      simp only [parse_typeref_string, h]
      rw [if_pos (by decide)]
    unfold tryFrom
    simp only [tryFromFuel, hparse]
    rw [if_neg (by decide), if_pos (by decide)]
  · have hparse : parse_typeref_string s = ("Boolean".toList, none) := by
      simp only [parse_typeref_string, h]
      rw [if_pos (by decide)]
    unfold tryFrom
    simp only [tryFromFuel, hparse]
    rw [if_neg (by decide), if_neg (by decide), if_pos (by decide)]

/-- C8, witness: trailing text after a primitive name — even further
delimiters or garbage — is ignored. -/
theorem claim_C8_witness :
    tryFrom "String<no>Trailing<text".toList = .ok .String ∧
    tryFrom "Int>junk".toList = .ok .Int ∧
    tryFrom " Boolean <X>".toList = .ok .Boolean :=
  ⟨(claim_C8 "String<no>Trailing<text".toList).1 (by decide),
   (claim_C8 "Int>junk".toList).2.1 (by decide),
   (claim_C8 " Boolean <X>".toList).2.2 (by decide)⟩

/-- C9.  `get_intermediate_representation` always returns `Ok`; the
manifest carries exactly the parser's stored lists and an empty `hints`
map.  The Rust method takes `&self` — embedded as a pure function of the
parser — so repeated calls return this same value. -/
theorem claim_C9 (p : Parser) :
    ∃ fm : FeatureManifest,
      get_intermediate_representation p = .ok fm ∧
      fm.hints = [] ∧
      fm.enum_defs = p.enums ∧
      fm.obj_defs = p.objects ∧
      fm.feature_defs = p.features :=
  ⟨{ enum_defs := p.enums, obj_defs := p.objects, hints := []
     feature_defs := p.features },
    rfl, rfl, rfl, rfl, rfl⟩

/-- C10.  In the user-type table, every stored value wraps its own key —
`Enum(k)` or `Object(k)` — and a name declared both as an enum and as an
object maps to `Object(name)`, because object names are inserted after
enum names and overwrite them. -/
theorem claim_C10 (enums : List EnumDef) (objects : List ObjectDef) (k : Str) :
    (∀ v : TypeRef, lookupAssoc k (buildTypes enums objects) = some v →
      v = .Enum k ∨ v = .Object k) ∧
    (k ∈ enums.map EnumDef.name → k ∈ objects.map ObjectDef.name →
      lookupAssoc k (buildTypes enums objects) = some (.Object k)) := by
  constructor
  · intro v hv
    rw [lookupAssoc_buildTypes] at hv
    by_cases hk1 : k ∈ objects.map ObjectDef.name
    · rw [if_pos hk1] at hv
      injection hv with hv
      exact Or.inr hv.symm
    · rw [if_neg hk1] at hv
      by_cases hk2 : k ∈ enums.map EnumDef.name
      · rw [if_pos hk2] at hv
        injection hv with hv
        exact Or.inl hv.symm
      · rw [if_neg hk2] at hv
        simp at hv
  · intro _ h2
    rw [lookupAssoc_buildTypes]
    simp [h2]

/-- C10, witness: the name `Foo`, declared both as an enum and as an
object, is looked up as `Object("Foo")`; the stored value wraps the key. -/
theorem claim_C10_witness :
    ((.Object "Foo".toList : TypeRef) = .Enum "Foo".toList ∨
      (.Object "Foo".toList : TypeRef) = .Object "Foo".toList) ∧
    lookupAssoc "Foo".toList
      (buildTypes [{ name := "Foo".toList, doc := [], variants := [] }]
        [{ name := "Foo".toList, doc := [], props := [] }])
      = some (.Object "Foo".toList) :=
  ⟨(claim_C10 [{ name := "Foo".toList, doc := [], variants := [] }]
      [{ name := "Foo".toList, doc := [], props := [] }] "Foo".toList).1
      (.Object "Foo".toList) (by decide),
   (claim_C10 [{ name := "Foo".toList, doc := [], variants := [] }]
      [{ name := "Foo".toList, doc := [], props := [] }] "Foo".toList).2
      (by decide) (by decide)⟩

end Fml
